import Mathlib

/-!
Shallow embedding of the apple-mcp contact cache and contacts query layer

This file models, in Lean, the `ContactCache` class (TTL/LRU cache with
memory accounting) and the cache-aware contacts query layer
(`src/utils/contacts.ts`) of the apple-mcp repository, and proves or refutes
the specification claims about them.

Modelling conventions:
* A JS `Map` (and a JS object used as a dictionary) is modelled as an
  association list in insertion order.  Setting an existing key updates the
  value in place (the key keeps its position); setting a fresh key appends.
* JS timestamps (`Date.now()`) are integers; each operation takes the current
  time `now : Int` as an explicit argument.
* JS floating-point byte/MB arithmetic is modelled over `Rat` (the values
  involved are small exact fractions).
* The external scripting bridge (JXA / AppleScript) is modelled by oracle
  arguments: the list of contact records an enumeration would yield (with
  `none` for a record that cannot be read), the result of the fallback
  enumeration, and a `Bool` saying whether the Contacts host permission is
  granted.  Functions that can throw return an `Except String` result paired
  with the (possibly mutated) cache state.
-/

namespace AppleMCP

/-- Model of `ContactsData`: JS object mapping a contact name to its phone numbers,
in property insertion order. -/
abbrev ContactsData := List (String × List String)

/-- One cache entry (`CacheEntry` in ContactCache.ts). -/
structure CacheEntry where
  data : ContactsData
  timestamp : Int
  accessCount : Nat
  lastAccessed : Int
  deriving Repr, DecidableEq

/-- Cache configuration (`CacheConfig` in ContactCache.ts). -/
structure CacheConfig where
  enabled : Bool
  ttlMs : Int
  maxMemoryMB : Rat
  maxEntries : Int
  cleanupIntervalMs : Int
  deriving Repr, DecidableEq

/-- Model of `DEFAULT_CONFIG` from ContactCache.ts. -/
def DEFAULT_CONFIG : CacheConfig :=
  { enabled := true, ttlMs := 10 * 60 * 1000, maxMemoryMB := 50,
    maxEntries := 10, cleanupIntervalMs := 60 * 1000 }

/-- Cache statistics (`CacheStats` in ContactCache.ts). -/
structure CacheStats where
  hits : Nat
  misses : Nat
  evictions : Nat
  totalQueries : Nat
  currentEntries : Nat
  estimatedMemoryMB : Rat
  hitRate : Rat
  deriving Repr, DecidableEq

/-- The zero-initialised statistics object of a fresh `ContactCache`. -/
def initialStats : CacheStats :=
  { hits := 0, misses := 0, evictions := 0, totalQueries := 0,
    currentEntries := 0, estimatedMemoryMB := 0, hitRate := 0 }

/-- The whole observable state of a `ContactCache` instance: the keyed entry
map (in insertion order), the live config, the stats aggregate, and whether
the periodic cleanup timer is armed. -/
structure CacheState where
  cache : List (String × CacheEntry)
  config : CacheConfig
  stats : CacheStats
  timerRunning : Bool
  deriving Repr, DecidableEq

/-- Model of `Map.get`: first (unique) binding of `key`. -/
def mapGet (key : String) : List (String × CacheEntry) → Option CacheEntry
  | [] => none
  | (k, e) :: rest => if k = key then some e else mapGet key rest

/-- Model of `Map.set`: update an existing key in place (keeping its insertion
position, as a JS `Map` does) or append a fresh binding. -/
def mapSet (key : String) (v : CacheEntry) :
    List (String × CacheEntry) → List (String × CacheEntry)
  | [] => [(key, v)]
  | (k, e) :: rest => if k = key then (k, v) :: rest else (k, e) :: mapSet key v rest

/-- Model of `Map.delete`: remove the binding of `key`, if any. -/
def mapDelete (key : String) :
    List (String × CacheEntry) → List (String × CacheEntry)
  | [] => []
  | (k, e) :: rest => if k = key then rest else (k, e) :: mapDelete key rest

/-- Estimated byte size of one snapshot: per contact,
`2 * name.length + 2 * Σ phone.length` (UTF-16 code units), as computed both
in `estimateMemoryUsage` and in `shouldEvictForMemory`. -/
def snapshotBytes (data : ContactsData) : Nat :=
  data.foldl
    (fun acc p => acc + p.1.length * 2 + p.2.foldl (fun s phone => s + phone.length * 2) 0)
    0

/-- Total estimated bytes held by the cache: snapshot bytes plus a 200-byte
overhead per cache entry. -/
def cacheBytes (cache : List (String × CacheEntry)) : Nat :=
  cache.foldl (fun acc p => acc + snapshotBytes p.2.data + 200) 0

/-- Model of `estimateMemoryUsage`: the cached bytes divided by
`1024 * 1024 = 1048576` to yield MB.  (`mkRat n d` is the rational `n / d`;
it is used instead of the field operations of `Rat` so that concrete states
evaluate inside the kernel.) -/
def estimateMemoryUsage (cache : List (String × CacheEntry)) : Rat :=
  mkRat (cacheBytes cache : Int) 1048576

/-- Model of `shouldEvictForMemory`: would admitting `newData` push the estimated
total memory over `maxMemoryMB`?  The sum
`currentMemory + newDataSize = cacheBytes/2^20 + snapshotBytes/2^20` is
written over the common denominator. -/
def shouldEvictForMemory (newData : ContactsData) (st : CacheState) : Bool :=
  decide (st.config.maxMemoryMB
    < mkRat ((cacheBytes st.cache : Int) + (snapshotBytes newData : Int)) 1048576)

/-- Model of `isOverMemoryLimit`. -/
def isOverMemoryLimit (st : CacheState) : Bool :=
  decide (st.config.maxMemoryMB < estimateMemoryUsage st.cache)

/-- Model of `updateStats`: refresh `currentEntries`, `estimatedMemoryMB` and
`hitRate` (`(hits / totalQueries) * 100`, written as the single rational
`(hits * 100) / totalQueries`, or `0` when there were no queries). -/
def updateStats (st : CacheState) : CacheState :=
  { st with stats := { st.stats with
      currentEntries := st.cache.length,
      estimatedMemoryMB := estimateMemoryUsage st.cache,
      hitRate := if 0 < st.stats.totalQueries
        then mkRat (st.stats.hits * 100 : Nat) st.stats.totalQueries
        else 0 } }

/-- The scanning step of `evictLeastRecentlyUsed`: running pair of
(oldest `lastAccessed` seen so far, its key). -/
def scanStep (acc : Int × Option String) (p : String × CacheEntry) : Int × Option String :=
  if p.2.lastAccessed < acc.1 then (p.2.lastAccessed, some p.1) else acc

/-- The scan of `evictLeastRecentlyUsed`: `oldestAccess` starts at
`Date.now()` and an entry is recorded only when strictly older. -/
def lruScan (now : Int) (cache : List (String × CacheEntry)) : Int × Option String :=
  cache.foldl scanStep (now, none)

/-- Model of `evictLeastRecentlyUsed`: delete the entry found by the scan.  The JS
guard `if (lruKey)` is falsy both for `null` and for the empty string, so an
entry keyed `""` is never actually deleted. -/
def evictLeastRecentlyUsed (now : Int) (st : CacheState) : CacheState :=
  if st.cache.length = 0 then st
  else
    match (lruScan now st.cache).2 with
    | none => st
    | some lruKey =>
      if lruKey = "" then st
      else { st with
        cache := mapDelete lruKey st.cache,
        stats := { st.stats with evictions := st.stats.evictions + 1 } }

/-- Model of `get(key)`: count the query; miss when disabled or absent; lazily expire
an entry older than `ttlMs` (counted as miss and eviction); otherwise bump
the access bookkeeping and count a hit.  Stats are only refreshed
(`updateStats`) on the expiry path and on the hit path. -/
def get (now : Int) (key : String) (st : CacheState) : Option ContactsData × CacheState :=
  let st := { st with stats := { st.stats with totalQueries := st.stats.totalQueries + 1 } }
  if st.config.enabled = false then
    (none, { st with stats := { st.stats with misses := st.stats.misses + 1 } })
  else
    match mapGet key st.cache with
    | none => (none, { st with stats := { st.stats with misses := st.stats.misses + 1 } })
    | some entry =>
      if st.config.ttlMs < now - entry.timestamp then
        (none, updateStats { st with
          cache := mapDelete key st.cache,
          stats := { st.stats with
            misses := st.stats.misses + 1,
            evictions := st.stats.evictions + 1 } })
      else
        (some entry.data, updateStats { st with
          cache := mapSet key
            { entry with accessCount := entry.accessCount + 1, lastAccessed := now } st.cache,
          stats := { st.stats with hits := st.stats.hits + 1 } })

/-- Model of `set(data, key)`: no-op when disabled; one memory-ceiling LRU eviction
check, one entry-count LRU eviction check, then insert/overwrite the entry
with `timestamp = now`, `accessCount = 1`, `lastAccessed = now`. -/
def set (now : Int) (data : ContactsData) (key : String) (st : CacheState) : CacheState :=
  if st.config.enabled = false then st
  else
    let entry : CacheEntry :=
      { data := data, timestamp := now, accessCount := 1, lastAccessed := now }
    let st := if shouldEvictForMemory data st then evictLeastRecentlyUsed now st else st
    let st := if st.config.maxEntries ≤ (st.cache.length : Int)
      then evictLeastRecentlyUsed now st else st
    updateStats { st with cache := mapSet key entry st.cache }

/-- Model of `invalidate(key?)`. -/
def invalidate (key : Option String) (st : CacheState) : CacheState :=
  match key with
  | some k => updateStats { st with cache := mapDelete k st.cache }
  | none => updateStats { st with cache := [] }

/-- A partial `CacheConfig`, as accepted by `updateConfig` and the
constructor. -/
structure CacheConfigPatch where
  enabled : Option Bool := none
  ttlMs : Option Int := none
  maxMemoryMB : Option Rat := none
  maxEntries : Option Int := none
  cleanupIntervalMs : Option Int := none

/-- Model of `{...config, ...patch}`: fields given by the patch win. -/
def applyPatch (p : CacheConfigPatch) (c : CacheConfig) : CacheConfig :=
  { enabled := p.enabled.getD c.enabled,
    ttlMs := p.ttlMs.getD c.ttlMs,
    maxMemoryMB := p.maxMemoryMB.getD c.maxMemoryMB,
    maxEntries := p.maxEntries.getD c.maxEntries,
    cleanupIntervalMs := p.cleanupIntervalMs.getD c.cleanupIntervalMs }

/-- Model of `updateConfig(partial)`: merge the patch; on false→true (re)start the
sweeper timer, on true→false stop it and clear all entries.  Note that the
code does not call `updateStats` here. -/
def updateConfig (p : CacheConfigPatch) (st : CacheState) : CacheState :=
  let oldEnabled := st.config.enabled
  let newConfig := applyPatch p st.config
  let st := { st with config := newConfig }
  if oldEnabled = false ∧ newConfig.enabled = true then
    { st with timerRunning := true }
  else if oldEnabled = true ∧ newConfig.enabled = false then
    { st with timerRunning := false, cache := [] }
  else st

/-- Model of `new ContactCache(config)`: defaults merged with the given partial
config; the cleanup timer starts iff enabled. -/
def ContactCache.init (p : CacheConfigPatch) : CacheState :=
  let cfg := applyPatch p DEFAULT_CONFIG
  { cache := [], config := cfg, stats := initialStats, timerRunning := cfg.enabled }

/-- The expiry pass of `cleanup()`: delete every entry whose age exceeds
`ttlMs`, counting one eviction per deleted entry. -/
def expireEntries (now : Int) (st : CacheState) : CacheState :=
  { st with
    cache := st.cache.filter (fun p => decide (now - p.2.timestamp ≤ st.config.ttlMs)),
    stats := { st.stats with evictions := st.stats.evictions
      + (st.cache.filter (fun p => decide (st.config.ttlMs < now - p.2.timestamp))).length } }

/-- The memory-ceiling loop of `cleanup()`:
`while (isOverMemoryLimit) evictLeastRecentlyUsed()`, run on `fuel`
iterations.  Each loop iteration either removes one entry or leaves the
state unchanged - and an unchanged over-limit state loops forever in JS - so
with `fuel = st.cache.length + 1` the result `none` holds exactly when the
JS loop diverges, and `some` gives the state in which the JS loop exits. -/
def cleanupMemLoop (fuel : Nat) (now : Int) (st : CacheState) : Option CacheState :=
  match fuel with
  | 0 => if isOverMemoryLimit st then none else some st
  | fuel + 1 =>
    if isOverMemoryLimit st then cleanupMemLoop fuel now (evictLeastRecentlyUsed now st)
    else some st

/-- Model of `cleanup()`: no-op when disabled; expire entries, then run the
memory-ceiling eviction loop (possibly divergent, hence `Option`), then
refresh stats. -/
def cleanup (now : Int) (st : CacheState) : Option CacheState :=
  if st.config.enabled = false then some st
  else
    let st := expireEntries now st
    (cleanupMemLoop (st.cache.length + 1) now st).map updateStats

/-- One externally-visible cache operation, for stating properties of
arbitrary operation sequences. -/
inductive CacheOp
  | opGet (now : Int) (key : String)
  | opSet (now : Int) (data : ContactsData) (key : String)

/-- Apply one operation to the state. -/
def applyOp (st : CacheState) : CacheOp → CacheState
  | .opGet now key => (get now key st).2
  | .opSet now data key => set now data key st

/-- Apply a sequence of operations, oldest first. -/
def applyOps (st : CacheState) (ops : List CacheOp) : CacheState :=
  ops.foldl applyOp st

/-! ## The cache-aware contacts query layer (`src/utils/contacts.ts`) -/

/-- A contact record as an enumeration yields it: `none` models a record
whose fields cannot be read (the JXA loop skips it); otherwise the record is
the `(name, phone values)` pair. -/
abbrev ContactRecord := Option (String × List String)

/-- Result of the direct per-contact JXA phone scan. -/
structure PhoneSearchResult where
  name : String
  phones : List String
  deriving Repr, DecidableEq

/-- The message thrown by `checkContactsAccess` when the Contacts app is not
reachable. -/
def accessErrorMsg : String :=
  "Cannot access Contacts app. Please grant access in System Preferences > Security & Privacy > Privacy > Contacts."

/-- Model of `checkContactsAccess`: returns `true`, or throws a descriptive access
error.  The `access` oracle says whether the host permission is granted. -/
def checkContactsAccess (access : Bool) : Except String Bool :=
  if access then .ok true else .error accessErrorMsg

/-- Lookup in a JS-object snapshot. -/
def objLookup (name : String) : ContactsData → Option (List String)
  | [] => none
  | (n, ps) :: rest => if n = name then some ps else objLookup name rest

/-- Model of `obj[name] = phones` on a JS-object snapshot: overwrite in place, or
append a fresh property. -/
def objInsert (name : String) (phones : List String) : ContactsData → ContactsData
  | [] => [(name, phones)]
  | (n, ps) :: rest =>
    if n = name then (n, phones) :: rest else (n, ps) :: objInsert name phones rest

/-- The body of `getAllNumbers`'s JXA enumeration loop: records that cannot
be read are skipped, as are records with an empty (falsy) name or no phone
numbers; readable records are stored with `phoneNumbers[name] =
phoneValues`. -/
def processPeopleAux (acc : ContactsData) : List ContactRecord → ContactsData
  | [] => acc
  | none :: rest => processPeopleAux acc rest
  | some (name, phoneValues) :: rest =>
    if name ≠ "" ∧ phoneValues ≠ [] then
      processPeopleAux (objInsert name phoneValues acc) rest
    else processPeopleAux acc rest

/-- The snapshot built by `getAllNumbers`'s enumeration loop. -/
def processPeople (people : List ContactRecord) : ContactsData :=
  processPeopleAux [] people

/-- Model of `getAllNumbers()`: serve from the cache when possible; otherwise check
access (throwing a descriptive error), enumerate (skipping unreadable
records), fall back to the slower AppleScript enumeration when the primary
one yields nothing, store a non-empty result under `allContacts`, and wrap
any thrown error as `Error accessing contacts: ...`.  `fallback` is the
oracle for the AppleScript path. -/
def getAllNumbers (access : Bool) (people : List ContactRecord)
    (fallback : Except String ContactsData) (now : Int) (st : CacheState) :
    Except String ContactsData × CacheState :=
  let r := get now "allContacts" st
  match r.1 with
  | some cachedData => (.ok cachedData, r.2)
  | none =>
    match checkContactsAccess access with
    | .error msg => (.error ("Error accessing contacts: " ++ msg), r.2)
    | .ok _ =>
      let nums := processPeople people
      match (if nums.isEmpty then fallback else .ok nums) with
      | .error msg => (.error ("Error accessing contacts: " ++ msg), r.2)
      | .ok contactsData =>
        if contactsData.isEmpty then (.ok contactsData, r.2)
        else (.ok contactsData, set now contactsData "allContacts" r.2)

/-- JS `String.prototype.trim`: drop leading and trailing whitespace.
(Written over the character list so that concrete inputs evaluate inside
the kernel.) -/
def jsTrim (s : String) : String :=
  String.mk (((s.toList.dropWhile Char.isWhitespace).reverse.dropWhile
    Char.isWhitespace).reverse)

/-- JS `String.prototype.startsWith`, over the character list. -/
def strStartsWith (s pre : String) : Bool :=
  pre.toList.isPrefixOf s.toList

/-- JS `String.prototype.substring(n)` / Lean `String.drop`, over the
character list. -/
def strDrop (s : String) (n : Nat) : String :=
  String.mk (s.toList.drop n)

/-- Model of `validateContactName` (ValidationUtils): trim; reject empty names, names
over 200 characters, and names containing control characters. -/
def validateContactName (name : String) : Except String String :=
  let trimmed := jsTrim name
  if trimmed.length = 0 then .error "Contact name cannot be empty"
  else if 200 < trimmed.length then
    .error "Contact name is too long (maximum 200 characters)"
  else if trimmed.toList.any (fun c =>
      (c.toNat ≤ 0x08) ∨ c.toNat = 0x0B ∨ c.toNat = 0x0C ∨
      (0x0E ≤ c.toNat ∧ c.toNat ≤ 0x1F) ∨ c.toNat = 0x7F) then
    .error "Contact name contains invalid control characters"
  else .ok trimmed

/-- Model of `validatePhoneNumber` (ValidationUtils): trim; reject the empty string,
strings with characters outside `[+\d\-\(\)\s\.]`, and strings over 30
characters. -/
def validatePhoneNumber (phoneNumber : String) : Except String String :=
  let trimmed := jsTrim phoneNumber
  if trimmed.length = 0 then .error "Phone number cannot be empty"
  else if ¬ trimmed.toList.all (fun c =>
      c.isDigit || c = '+' || c = '-' || c = '(' || c = ')' || c = '.' || c.isWhitespace) then
    .error "Phone number contains invalid characters"
  else if 30 < trimmed.length then .error "Phone number is too long (maximum 30 characters)"
  else .ok trimmed

/-- JS `String.prototype.includes` (substring test). -/
def jsIncludes (hay needle : String) : Bool :=
  (List.range (hay.toList.length + 1)).any
    (fun i => needle.toList.isPrefixOf (hay.toList.drop i))

/-- The JXA search loop of `findNumber`: first contact (skipping unreadable
ones) whose name is truthy and contains the search string
(case-insensitively) and that has at least one phone number. -/
def findNumberSearch (searchName : String) : List ContactRecord → List String
  | [] => []
  | none :: rest => findNumberSearch searchName rest
  | some (personName, phoneValues) :: rest =>
    if personName ≠ "" ∧ jsIncludes personName.toLower searchName.toLower = true
        ∧ phoneValues ≠ [] then
      phoneValues
    else findNumberSearch searchName rest

/-- The fuzzy pick of `findNumberFuzzyFallback`: phone numbers of the first
snapshot contact whose name contains the search string
(case-insensitively), else `[]`. -/
def fuzzyPick (sanitizedName : String) (allNumbers : ContactsData) : List String :=
  match allNumbers.find? (fun p => jsIncludes p.1.toLower sanitizedName.toLower) with
  | some p => p.2
  | none => []

/-- Model of `findNumber(name)`: validate, check access (both throwing, wrapped as
`Error finding contact: ...`), search directly, and on zero matches run the
fuzzy fallback over the cached (or freshly enumerated) bulk snapshot - the
fallback swallows every error and yields `[]`. -/
def findNumber (access : Bool) (people : List ContactRecord)
    (fallback : Except String ContactsData) (name : String) (now : Int)
    (st : CacheState) : Except String (List String) × CacheState :=
  match validateContactName name with
  | .error msg => (.error ("Error finding contact: " ++ msg), st)
  | .ok sanitizedName =>
    match checkContactsAccess access with
    | .error msg => (.error ("Error finding contact: " ++ msg), st)
    | .ok _ =>
      let phones := findNumberSearch sanitizedName people
      if phones.isEmpty then
        -- findNumberFuzzyFallback
        let r := get now "allContacts" st
        match r.1 with
        | some cachedData => (.ok (fuzzyPick sanitizedName cachedData), r.2)
        | none =>
          match getAllNumbers access people fallback now r.2 with
          | (.ok allNumbers, st2) => (.ok (fuzzyPick sanitizedName allNumbers), st2)
          | (.error _, st2) => (.ok [], st2)
      else (.ok phones, st)

/-- The stripping step used everywhere before phone comparison:
`replace(/[^0-9+]/g, '')` keeps digits and every `+`. -/
def stripPhone (s : String) : String :=
  String.mk (s.toList.filter (fun c => c.isDigit || c = '+'))

/-- Model of `[...new Set(formats)]`: deduplicate keeping first occurrences. -/
def jsSetDedup (l : List String) : List String :=
  l.foldl (fun acc x => if x ∈ acc then acc else acc ++ [x]) []

/-- Model of `normalizePhoneNumber`: the cleaned string, plus the form without a
leading `+1`, plus (for bare strings) `+1`- and `+`-prefixed forms. -/
def normalizePhoneNumber (phoneNumber : String) : List String :=
  let cleaned := stripPhone phoneNumber
  let formats := [cleaned]
  let formats := if strStartsWith cleaned "+1" then formats ++ [strDrop cleaned 2] else formats
  let formats := if strStartsWith cleaned "+" = false ∧ cleaned.length = 10
    then formats ++ ["+1" ++ cleaned] else formats
  let formats := if strStartsWith cleaned "+" = false ∧ 0 < cleaned.length
    then formats ++ ["+" ++ cleaned] else formats
  jsSetDedup formats

/-- The per-number comparison of the cached search (and of the direct JXA
scan): a cached normalized number `num` matches a search format `s` when
they are equal, or `num` is `+s` or `+1s`, or `s` is `+1num`. -/
def phoneNumMatch (num s : String) : Bool :=
  num == s || num == "+" ++ s || num == "+1" ++ s || "+1" ++ num == s

/-- Does one snapshot contact match any of the search formats? -/
def contactMatches (searchNumbers : List String) (p : String × List String) : Bool :=
  searchNumbers.any (fun s => (p.2.map stripPhone).any (fun num => phoneNumMatch num s))

/-- The contact-scanning loop of `findContactByPhoneCachedSearch`: name of
the first matching snapshot contact. -/
def searchCachedContacts (searchNumbers : List String) : ContactsData → Option String
  | [] => none
  | p :: rest =>
    if contactMatches searchNumbers p then some p.1
    else searchCachedContacts searchNumbers rest

/-- Model of `findContactByPhoneCachedSearch`: consult only the cached `allContacts`
snapshot; `none` when there is no (fresh) snapshot or nothing matches. -/
def findContactByPhoneCachedSearch (now : Int) (searchNumbers : List String)
    (st : CacheState) : Option String × CacheState :=
  let r := get now "allContacts" st
  match r.1 with
  | none => (none, r.2)
  | some allContacts => (searchCachedContacts searchNumbers allContacts, r.2)

/-- Model of `cachePhoneSearchResult`: merge the discovered contact into the cached
bulk snapshot (creating one when absent) and store it back under
`allContacts`. -/
def cachePhoneSearchResult (now : Int) (contactName : String)
    (phoneNumbers : List String) (st : CacheState) : CacheState :=
  let r := get now "allContacts" st
  set now (objInsert contactName phoneNumbers (r.1.getD [])) "allContacts" r.2

/-- Model of `findContactByPhoneOptimized`: validate; check access; cache-only search
first; on a miss run the direct per-contact scan (`scan` oracle) and, on
success, write the discovery back through `cachePhoneSearchResult`.  Every
thrown error - including the access-denied error - is caught and turned into
`none`.  The final `Bool` records whether the direct directory-service scan
was reached. -/
def findContactByPhoneOptimized (access : Bool) (scan : Option PhoneSearchResult)
    (now : Int) (phoneNumber : String) (st : CacheState) :
    Option String × CacheState × Bool :=
  match validatePhoneNumber phoneNumber with
  | .error _ => (none, st, false)
  | .ok sanitizedPhoneNumber =>
    match checkContactsAccess access with
    | .error _ => (none, st, false)
    | .ok _ =>
      let searchNumbers := normalizePhoneNumber sanitizedPhoneNumber
      let r := findContactByPhoneCachedSearch now searchNumbers st
      match r.1 with
      | some name => (some name, r.2, false)
      | none =>
        match scan with
        | some found =>
          (some found.name, cachePhoneSearchResult now found.name found.phones r.2, true)
        | none => (none, r.2, true)

/-- Model of `findContactByPhone` delegates to the optimized version (and catches,
returning `null` - there is nothing left to catch in the model). -/
def findContactByPhone (access : Bool) (scan : Option PhoneSearchResult)
    (now : Int) (phoneNumber : String) (st : CacheState) :
    Option String × CacheState × Bool :=
  findContactByPhoneOptimized access scan now phoneNumber st

/-! ## Basic lemmas about the store primitives -/

theorem updateStats_cache (st : CacheState) : (updateStats st).cache = st.cache := rfl

theorem updateStats_config (st : CacheState) : (updateStats st).config = st.config := rfl

theorem evictLeastRecentlyUsed_config (now : Int) (st : CacheState) :
    (evictLeastRecentlyUsed now st).config = st.config := by
  unfold evictLeastRecentlyUsed
  split
  · rfl
  · split
    · rfl
    · split <;> rfl

theorem get_config (now : Int) (key : String) (st : CacheState) :
    (get now key st).2.config = st.config := by
  unfold get
  dsimp only
  split
  · rfl
  · split
    · rfl
    · split <;> rfl

theorem set_config (now : Int) (data : ContactsData) (key : String) (st : CacheState) :
    (set now data key st).config = st.config := by
  unfold set
  split
  · rfl
  · simp only [updateStats_config]
    split <;> split <;> simp [evictLeastRecentlyUsed_config]

theorem mapGet_mapSet_self (key : String) (v : CacheEntry) :
    ∀ c, mapGet key (mapSet key v c) = some v
  | [] => by simp [mapGet, mapSet]
  | (k, e) :: rest => by
    by_cases h : k = key
    · simp [mapGet, mapSet, h]
    · simp [mapGet, mapSet, h, mapGet_mapSet_self key v rest]

theorem mapDelete_length_le (key : String) :
    ∀ c : List (String × CacheEntry), (mapDelete key c).length ≤ c.length
  | [] => le_refl _
  | (k, e) :: rest => by
    by_cases h : k = key
    · simp [mapDelete, h]
    · simpa [mapDelete, h] using mapDelete_length_le key rest

theorem length_le_mapDelete_length_add_one (key : String) :
    ∀ c : List (String × CacheEntry), c.length ≤ (mapDelete key c).length + 1
  | [] => by simp [mapDelete]
  | (k, e) :: rest => by
    by_cases h : k = key
    · simp [mapDelete, h]
    · simpa [mapDelete, h, Nat.succ_le_succ_iff] using
        length_le_mapDelete_length_add_one key rest

theorem evictLeastRecentlyUsed_length_le (now : Int) (st : CacheState) :
    (evictLeastRecentlyUsed now st).cache.length ≤ st.cache.length := by
  unfold evictLeastRecentlyUsed
  split
  · exact le_refl _
  · split
    · exact le_refl _
    · split
      · exact le_refl _
      · exact mapDelete_length_le _ _

theorem length_le_evictLeastRecentlyUsed_length_add_one (now : Int) (st : CacheState) :
    st.cache.length ≤ (evictLeastRecentlyUsed now st).cache.length + 1 := by
  unfold evictLeastRecentlyUsed
  split
  · exact Nat.le_succ _
  · split
    · exact Nat.le_succ _
    · split
      · exact Nat.le_succ _
      · exact length_le_mapDelete_length_add_one _ _

/-! ## C1: lazy TTL expiry in `get` -/

/-- Claim C1 (confirmed). For every cache entry and every key, on an enabled
store, `get(key)` returns absent whenever the entry's age
(`now - entry.timestamp`) exceeds `ttlMs` - whatever the entry's
`lastAccessed` and `accessCount` are, so expiry is absolute, not sliding;
the entry is deleted and both the miss counter and the eviction counter are
incremented by 1. -/
theorem claim_C1 (now : Int) (key : String) (st : CacheState) (e : CacheEntry)
    (hen : st.config.enabled = true)
    (hget : mapGet key st.cache = some e)
    (hage : st.config.ttlMs < now - e.timestamp) :
    (get now key st).1 = none ∧
    (get now key st).2.cache = mapDelete key st.cache ∧
    (get now key st).2.stats.misses = st.stats.misses + 1 ∧
    (get now key st).2.stats.evictions = st.stats.evictions + 1 := by
  simp [get, hen, hget, hage, updateStats]

/-- A store holding one entry created at time `0` under key `"k"`. -/
def ttlStaleStore : CacheState :=
  set 0 [("Alice", ["123"])] "k" (ContactCache.init {})

/-- The entry `ttlStaleStore` holds. -/
def ttlStaleEntry : CacheEntry :=
  { data := [("Alice", ["123"])], timestamp := 0, accessCount := 1, lastAccessed := 0 }

/-- Concrete instance of C1: the entry created at time `0`, read at time
`600001 > ttlMs = 600000`, is reported absent, deleted, and counted as a
miss and an eviction. -/
theorem claim_C1_witness :
    ttlStaleStore.config.enabled = true ∧
    mapGet "k" ttlStaleStore.cache = some ttlStaleEntry ∧
    ttlStaleStore.config.ttlMs < 600001 - ttlStaleEntry.timestamp ∧
    ((get 600001 "k" ttlStaleStore).1 = none ∧
     (get 600001 "k" ttlStaleStore).2.cache = mapDelete "k" ttlStaleStore.cache ∧
     (get 600001 "k" ttlStaleStore).2.stats.misses = ttlStaleStore.stats.misses + 1 ∧
     (get 600001 "k" ttlStaleStore).2.stats.evictions = ttlStaleStore.stats.evictions + 1) :=
  ⟨by decide, by decide, by decide,
   claim_C1 600001 "k" ttlStaleStore ttlStaleEntry (by decide) (by decide) (by decide)⟩

/-! ## C2: the shape of `set` -/

theorem mkRat_add_split (a b : Int) :
    (mkRat (a + b) 1048576 : Rat) = mkRat a 1048576 + (b : Rat) / 1048576 := by
  rw [Rat.mkRat_eq_divInt, Rat.mkRat_eq_divInt, Rat.divInt_eq_div, Rat.divInt_eq_div]
  push_cast
  ring

/-- Refinement reference for claim C2, written from the claim's words: when
the store is disabled `set` is a no-op; otherwise, if the current estimated
memory plus the estimated size of the incoming snapshot exceeds
`maxMemoryMB`, one LRU eviction pass runs; independently, if the entry count
is already at `maxEntries`, one LRU eviction pass runs; then the entry is
inserted/overwritten with `createdAt = now`, `accessCount = 1`,
`lastAccessedAt = now`. -/
def setSpec (now : Int) (data : ContactsData) (key : String) (st : CacheState) : CacheState :=
  if st.config.enabled = false then st
  else
    let entry : CacheEntry :=
      { data := data, timestamp := now, accessCount := 1, lastAccessed := now }
    let st1 := if st.config.maxMemoryMB
        < estimateMemoryUsage st.cache + (snapshotBytes data : Rat) / 1048576
      then evictLeastRecentlyUsed now st else st
    let st2 := if st1.config.maxEntries ≤ (st1.cache.length : Int)
      then evictLeastRecentlyUsed now st1 else st1
    updateStats { st2 with cache := mapSet key entry st2.cache }

theorem shouldEvictForMemory_iff (data : ContactsData) (st : CacheState) :
    shouldEvictForMemory data st = true ↔
      st.config.maxMemoryMB
        < estimateMemoryUsage st.cache + (snapshotBytes data : Rat) / 1048576 := by
  rw [shouldEvictForMemory, decide_eq_true_eq, estimateMemoryUsage, mkRat_add_split]
  simp only [Int.cast_natCast]

/-- Claim C2 (corrected). For every enabled store, `set(data, key)` runs a
single LRU eviction pass for the memory ceiling (one check, not a loop) and,
independently, a single LRU eviction pass when the entry count is already at
`maxEntries`, then inserts/overwrites the entry with `createdAt = now`,
`accessCount = 1`, `lastAccessedAt = now`; when the store is disabled, `set`
is a no-op.  Each eviction pass removes at most one entry - possibly none,
which is what the correction is about (see `claim_C2_cex`). -/
theorem claim_C2 (now : Int) (data : ContactsData) (key : String) (st : CacheState) :
    set now data key st = setSpec now data key st ∧
    st.cache.length ≤ (evictLeastRecentlyUsed now st).cache.length + 1 ∧
    (evictLeastRecentlyUsed now st).cache.length ≤ st.cache.length := by
  refine ⟨?_, length_le_evictLeastRecentlyUsed_length_add_one now st,
    evictLeastRecentlyUsed_length_le now st⟩
  unfold set setSpec
  simp only [shouldEvictForMemory_iff]

/-- A one-entry store over its (zero) memory budget whose entry was last
accessed at time `5` - the very moment at which `set` is called below. -/
def memTieStore : CacheState :=
  { cache := [("k",
      { data := [("a", ["1"])], timestamp := 5, accessCount := 1, lastAccessed := 5 })],
    config := { DEFAULT_CONFIG with maxMemoryMB := 0 },
    stats := initialStats, timerRunning := true }

/-- Counterexample to claim C2 as stated: the store is enabled and admitting
the snapshot exceeds `maxMemoryMB`, yet `set` evicts nothing - the scan of
`evictLeastRecentlyUsed` starts at `Date.now()` and keeps only strictly
older entries, so an entry last accessed in the same millisecond is never
selected.  The eviction counter stays `0` and both the old and the new key
are present afterwards. -/
theorem claim_C2_cex :
    memTieStore.config.enabled = true ∧
    shouldEvictForMemory [("b", ["2"])] memTieStore = true ∧
    (set 5 [("b", ["2"])] "j" memTieStore).stats.evictions = memTieStore.stats.evictions ∧
    (set 5 [("b", ["2"])] "j" memTieStore).cache.map Prod.fst = ["k", "j"] := by
  decide

/-! ## C3: the `cleanup` memory loop can spin forever -/

/-- Claim C3 (code bug): on `memTieStore` - enabled, non-empty, over its
memory ceiling, with its only entry last accessed at the sweep time `5` -
the expiry pass removes nothing and the `while (isOverMemoryLimit())` loop
of `cleanup` can never evict the entry, so the JS loop never exits
(modelled as `none`), although the claim (and the spec) say the loop
continues only until the ceiling is satisfied or the store is empty. -/
theorem claim_C3 :
    memTieStore.config.enabled = true ∧
    isOverMemoryLimit memTieStore = true ∧
    memTieStore.cache ≠ [] ∧
    cleanup 5 memTieStore = none := by
  decide

/-! ## C4: which entry an LRU eviction removes -/

theorem scanStep_foldl_spec (c : List (String × CacheEntry)) :
    ∀ (m : Int) (ko : Option String),
      (c.foldl scanStep (m, ko) = (m, ko) ∧ ∀ p ∈ c, m ≤ p.2.lastAccessed) ∨
      (∃ pre k e post, c = pre ++ (k, e) :: post ∧
        c.foldl scanStep (m, ko) = (e.lastAccessed, some k) ∧
        e.lastAccessed < m ∧
        (∀ p ∈ pre, e.lastAccessed < p.2.lastAccessed) ∧
        (∀ p ∈ post, e.lastAccessed ≤ p.2.lastAccessed)) := by
  induction c with
  | nil => intro m ko; exact Or.inl ⟨rfl, by simp⟩
  | cons hd tl ih =>
    intro m ko
    rw [List.foldl_cons]
    by_cases h : hd.2.lastAccessed < m
    · have hstep : scanStep (m, ko) hd = (hd.2.lastAccessed, some hd.1) := by
        simp [scanStep, h]
      rw [hstep]
      rcases ih hd.2.lastAccessed (some hd.1) with ⟨heq, hall⟩ |
        ⟨pre, k, e, post, hc, heq, hlt, hpre, hpost⟩
      · exact Or.inr ⟨[], hd.1, hd.2, tl, by simp, heq, h, by simp, hall⟩
      · refine Or.inr ⟨hd :: pre, k, e, post, by simp [hc], heq, hlt.trans h, ?_, hpost⟩
        intro p hp
        rcases List.mem_cons.mp hp with rfl | hp
        · exact hlt
        · exact hpre p hp
    · have hstep : scanStep (m, ko) hd = (m, ko) := by simp [scanStep, h]
      rw [hstep]
      rcases ih m ko with ⟨heq, hall⟩ | ⟨pre, k, e, post, hc, heq, hlt, hpre, hpost⟩
      · refine Or.inl ⟨heq, ?_⟩
        intro p hp
        rcases List.mem_cons.mp hp with rfl | hp
        · exact not_lt.mp h
        · exact hall p hp
      · refine Or.inr ⟨hd :: pre, k, e, post, by simp [hc], heq, hlt, ?_, hpost⟩
        intro p hp
        rcases List.mem_cons.mp hp with rfl | hp
        · exact hlt.trans_le (not_lt.mp h)
        · exact hpre p hp

theorem mapDelete_append_cons (k : String) (e : CacheEntry) :
    ∀ (pre post : List (String × CacheEntry)), k ∉ pre.map Prod.fst →
      mapDelete k (pre ++ (k, e) :: post) = pre ++ post
  | [], post, _ => by simp [mapDelete]
  | (k', e') :: pre, post, h => by
    have hk : ¬ (k' = k) := by
      intro hkk
      exact h (by simp [hkk])
    have hrest : k ∉ pre.map Prod.fst := by
      intro hm
      exact h (by simp [hm])
    simp [mapDelete, hk, mapDelete_append_cons k e pre post hrest]

/-- The store of spec §8.2 after the whole scenario: `maxEntries = 2`;
`set k1` at time 0, `set k2` at time 1, `get k1` at time 2 (so `k2` is the
true LRU), `set k3` at time 3. -/
def lruPressureResult : CacheState :=
  set 3 [("C", ["3"])] "k3"
    ((get 2 "k1"
        (set 1 [("B", ["2"])] "k2"
          (set 0 [("A", ["1"])] "k1"
            (ContactCache.init { maxEntries := some 2 })))).2)

/-- Claim C4 (confirmed). Whenever an LRU eviction actually removes an
entry from a store with distinct keys, the removed entry has a minimal
`lastAccessed` among all entries, and it is the first entry attaining that
minimum in iteration (insertion) order: every earlier entry is strictly
younger and every later entry is at least as young.  Concretely, with
`maxEntries = 2`, after inserting `k1`, then `k2`, then reading `k1`,
inserting `k3` evicts `k2` (the oldest `lastAccessed`), not `k1`. -/
theorem claim_C4 :
    (∀ (now : Int) (st : CacheState),
        (st.cache.map Prod.fst).Nodup →
        evictLeastRecentlyUsed now st ≠ st →
        ∃ k e pre post,
          st.cache = pre ++ (k, e) :: post ∧
          (evictLeastRecentlyUsed now st).cache = pre ++ post ∧
          (evictLeastRecentlyUsed now st).stats.evictions = st.stats.evictions + 1 ∧
          e.lastAccessed < now ∧
          (∀ p ∈ st.cache, e.lastAccessed ≤ p.2.lastAccessed) ∧
          (∀ p ∈ pre, e.lastAccessed < p.2.lastAccessed)) ∧
    lruPressureResult.cache.map Prod.fst = ["k1", "k3"] ∧
    mapGet "k2" lruPressureResult.cache = none ∧
    (mapGet "k1" lruPressureResult.cache).isSome = true := by
  refine ⟨?_, by decide, by decide, by decide⟩
  intro now st hnd hne
  by_cases h0 : st.cache.length = 0
  · exact absurd (by simp [evictLeastRecentlyUsed, h0]) hne
  · cases hscan : (lruScan now st.cache).2 with
    | none => exact absurd (by simp [evictLeastRecentlyUsed, h0, hscan]) hne
    | some k =>
      by_cases hk : k = ""
      · exact absurd (by simp [evictLeastRecentlyUsed, h0, hscan, hk]) hne
      · have hrep1 : (evictLeastRecentlyUsed now st).cache = mapDelete k st.cache := by
          simp [evictLeastRecentlyUsed, h0, hscan, hk]
        have hrep2 : (evictLeastRecentlyUsed now st).stats.evictions =
            st.stats.evictions + 1 := by
          simp [evictLeastRecentlyUsed, h0, hscan, hk]
        rcases scanStep_foldl_spec st.cache now none with ⟨heq, _⟩ |
          ⟨pre, k0, e, post, hc, heq, hlt, hpre, hpost⟩
        · rw [lruScan, heq] at hscan
          cases hscan
        · rw [lruScan, heq] at hscan
          cases hscan
          have hkpre : k ∉ pre.map Prod.fst := by
            rw [hc] at hnd
            have := List.nodup_middle.mp (by simpa using hnd)
            intro hm
            exact (List.nodup_cons.mp this).1 (List.mem_append.mpr (Or.inl hm))
          refine ⟨k, e, pre, post, hc, ?_, hrep2, hlt, ?_, hpre⟩
          · rw [hrep1, hc]
            exact mapDelete_append_cons k e pre post hkpre
          · intro p hp
            rw [hc] at hp
            rcases List.mem_append.mp hp with hp | hp
            · exact le_of_lt (hpre p hp)
            · rcases List.mem_cons.mp hp with rfl | hp
              · exact le_refl _
              · exact hpost p hp

/-- A two-entry store whose first entry is the LRU (last accessed at 0,
versus 1), evicted at time 2. -/
def lruTwoStore : CacheState :=
  { cache := [("a", { data := [("A", ["1"])], timestamp := 0, accessCount := 1, lastAccessed := 0 }),
              ("b", { data := [("B", ["2"])], timestamp := 1, accessCount := 1, lastAccessed := 1 })],
    config := DEFAULT_CONFIG, stats := initialStats, timerRunning := true }

/-- Concrete instance of C4's universal part on `lruTwoStore`. -/
theorem claim_C4_witness :
    (lruTwoStore.cache.map Prod.fst).Nodup ∧
    evictLeastRecentlyUsed 2 lruTwoStore ≠ lruTwoStore ∧
    (∃ k e pre post,
      lruTwoStore.cache = pre ++ (k, e) :: post ∧
      (evictLeastRecentlyUsed 2 lruTwoStore).cache = pre ++ post ∧
      (evictLeastRecentlyUsed 2 lruTwoStore).stats.evictions =
        lruTwoStore.stats.evictions + 1 ∧
      e.lastAccessed < 2 ∧
      (∀ p ∈ lruTwoStore.cache, e.lastAccessed ≤ p.2.lastAccessed) ∧
      (∀ p ∈ pre, e.lastAccessed < p.2.lastAccessed)) :=
  ⟨by decide, by decide, claim_C4.1 2 lruTwoStore (by decide) (by decide)⟩

/-! ## C5: what `hitRate` actually reports -/

theorem mkRat_hits_mul_100 (h t : Nat) :
    mkRat ((h * 100 : Nat) : Int) t = (h : Rat) / (t : Rat) * 100 := by
  rw [Rat.mkRat_eq_divInt, Rat.divInt_eq_div]
  push_cast
  ring

theorem evictLeastRecentlyUsed_stats_hits (now : Int) (st : CacheState) :
    (evictLeastRecentlyUsed now st).stats.hits = st.stats.hits := by
  unfold evictLeastRecentlyUsed
  split
  · rfl
  · split
    · rfl
    · split <;> rfl

theorem evictLeastRecentlyUsed_stats_totalQueries (now : Int) (st : CacheState) :
    (evictLeastRecentlyUsed now st).stats.totalQueries = st.stats.totalQueries := by
  unfold evictLeastRecentlyUsed
  split
  · rfl
  · split
    · rfl
    · split <;> rfl

theorem set_stats_hits (now : Int) (data : ContactsData) (key : String) (st : CacheState) :
    (set now data key st).stats.hits = st.stats.hits := by
  unfold set updateStats
  dsimp only
  split
  · rfl
  · split <;> split <;>
      simp [evictLeastRecentlyUsed_stats_hits]

theorem set_stats_totalQueries (now : Int) (data : ContactsData) (key : String)
    (st : CacheState) :
    (set now data key st).stats.totalQueries = st.stats.totalQueries := by
  unfold set updateStats
  dsimp only
  split
  · rfl
  · split <;> split <;>
      simp [evictLeastRecentlyUsed_stats_totalQueries]

theorem set_stats_hitRate (now : Int) (data : ContactsData) (key : String) (st : CacheState)
    (hen : st.config.enabled = true) :
    (set now data key st).stats.hitRate =
      if 0 < st.stats.totalQueries
        then mkRat (st.stats.hits * 100 : Nat) st.stats.totalQueries
        else 0 := by
  have hne : ¬ (st.config.enabled = false) := by simp [hen]
  unfold set updateStats
  dsimp only
  rw [if_neg hne]
  split <;> split <;>
    simp [evictLeastRecentlyUsed_stats_hits, evictLeastRecentlyUsed_stats_totalQueries]

theorem get_stats_totalQueries (now : Int) (key : String) (st : CacheState) :
    (get now key st).2.stats.totalQueries = st.stats.totalQueries + 1 := by
  unfold get updateStats
  dsimp only
  split
  · rfl
  · split
    · rfl
    · split <;> rfl

/-- The hitRate field is `0` whenever it has ever been written with
`totalQueries = 0`, and every operation keeps that so as long as
`totalQueries` stays `0`. -/
theorem applyOps_hitRate_zero :
    ∀ (ops : List CacheOp) (st : CacheState),
      (st.stats.totalQueries = 0 → st.stats.hitRate = 0) →
      ((applyOps st ops).stats.totalQueries = 0 → (applyOps st ops).stats.hitRate = 0) := by
  intro ops
  induction ops with
  | nil => intro st h; exact h
  | cons op ops ih =>
    intro st h
    show ((applyOps (applyOp st op) ops).stats.totalQueries = 0 →
      (applyOps (applyOp st op) ops).stats.hitRate = 0)
    apply ih
    cases op with
    | opGet now key =>
      intro h0
      rw [show (applyOp st (.opGet now key)) = (get now key st).2 from rfl,
        get_stats_totalQueries] at h0
      cases h0
    | opSet now data key =>
      intro h0
      have h0' : (set now data key st).stats.totalQueries = 0 := h0
      show (set now data key st).stats.hitRate = 0
      by_cases hen : st.config.enabled = true
      · rw [set_stats_totalQueries] at h0'
        rw [set_stats_hitRate now data key st hen, h0']
        rfl
      · have hid : set now data key st = st := by
          unfold set
          simp only [Bool.not_eq_true] at hen
          simp [hen]
        rw [hid] at h0' ⊢
        exact h h0'

/-- Claim C5 (corrected).  `hitRate` is the percentage
`hits / totalQueries * 100`, not the ratio `hits / totalQueries`, and it is
refreshed only by the operations that call `updateStats`: an enabled `set`,
and a `get` that finds an entry (hit or lazy expiry).  A plain miss (no
entry, or disabled store) leaves `hitRate` at its previous value.  It is `0`
as long as `totalQueries` is `0` after any sequence of `get`/`set`
operations from a fresh store. -/
theorem claim_C5 :
    (∀ (p : CacheConfigPatch) (ops : List CacheOp),
        (applyOps (ContactCache.init p) ops).stats.totalQueries = 0 →
        (applyOps (ContactCache.init p) ops).stats.hitRate = 0) ∧
    (∀ (now : Int) (data : ContactsData) (key : String) (st : CacheState),
        st.config.enabled = true →
        (set now data key st).stats.hitRate =
          (if (set now data key st).stats.totalQueries = 0 then 0
           else ((set now data key st).stats.hits : Rat)
             / ((set now data key st).stats.totalQueries : Rat) * 100)) ∧
    (∀ (now : Int) (key : String) (st : CacheState) (e : CacheEntry),
        st.config.enabled = true → mapGet key st.cache = some e →
        (get now key st).2.stats.hitRate =
          ((get now key st).2.stats.hits : Rat)
            / ((get now key st).2.stats.totalQueries : Rat) * 100) ∧
    (∀ (now : Int) (key : String) (st : CacheState),
        st.config.enabled = false ∨ mapGet key st.cache = none →
        (get now key st).2.stats.hitRate = st.stats.hitRate) := by
  refine ⟨?_, ?_, ?_, ?_⟩
  · intro p ops
    exact applyOps_hitRate_zero ops (ContactCache.init p) (fun _ => rfl)
  · intro now data key st hen
    rw [set_stats_hitRate now data key st hen, set_stats_hits, set_stats_totalQueries]
    rcases Nat.eq_zero_or_pos st.stats.totalQueries with h0 | h0
    · simp [h0]
    · rw [if_pos h0, if_neg (Nat.pos_iff_ne_zero.mp h0), mkRat_hits_mul_100]
  · intro now key st e hen hget
    have hne : ¬ (st.config.enabled = false) := by simp [hen]
    unfold get updateStats
    dsimp only
    rw [if_neg hne]
    simp only [hget]
    split
    all_goals
      simp
      rw [Rat.mkRat_eq_divInt, Rat.divInt_eq_div]
      push_cast
      ring
  · intro now key st h
    unfold get
    dsimp only
    rcases h with h | h
    · simp [h]
    · by_cases henb : st.config.enabled = false
      · simp [henb]
      · simp [henb, h]

/-- The state after one stored entry and one cache hit:
`hits = totalQueries = 1`. -/
def hitRateAfterHit : CacheState := (get 1 "k" ttlStaleStore).2

/-- The state after a further plain miss: `hits = 1, totalQueries = 2`, but
no stats refresh happened. -/
def hitRateAfterMiss : CacheState := (get 2 "nope" hitRateAfterHit).2

/-- Counterexample to claim C5 as stated.  After a `set` and one hit,
`hits / totalQueries = 1/1 = 1` but the reported `hitRate` is `100` (the
code multiplies by 100).  After a further plain miss, `hits / totalQueries`
is `1/2`, and even `hits / totalQueries * 100 = 50` differs from the
reported `hitRate`, which stays at the stale `100` because a plain miss
does not refresh stats.  (`mkRat n d` is the rational `n / d`.) -/
theorem claim_C5_cex :
    hitRateAfterHit.stats.hits = 1 ∧
    hitRateAfterHit.stats.totalQueries = 1 ∧
    hitRateAfterHit.stats.hitRate = 100 ∧
    hitRateAfterHit.stats.hitRate ≠
      mkRat hitRateAfterHit.stats.hits hitRateAfterHit.stats.totalQueries ∧
    hitRateAfterMiss.stats.hits = 1 ∧
    hitRateAfterMiss.stats.totalQueries = 2 ∧
    hitRateAfterMiss.stats.hitRate = 100 ∧
    hitRateAfterMiss.stats.hitRate ≠
      mkRat (hitRateAfterMiss.stats.hits * 100 : Nat)
        hitRateAfterMiss.stats.totalQueries := by
  decide

/-- Concrete instance of C5's hit case on `ttlStaleStore`. -/
theorem claim_C5_witness :
    ttlStaleStore.config.enabled = true ∧
    mapGet "k" ttlStaleStore.cache = some ttlStaleEntry ∧
    (get 1 "k" ttlStaleStore).2.stats.hitRate =
      ((get 1 "k" ttlStaleStore).2.stats.hits : Rat)
        / ((get 1 "k" ttlStaleStore).2.stats.totalQueries : Rat) * 100 :=
  ⟨by decide, by decide,
   claim_C5.2.2.1 1 "k" ttlStaleStore ttlStaleEntry (by decide) (by decide)⟩

/-! ## C6: disabling the store -/

/-- The store of C6: one entry, then `updateConfig({enabled: false})`. -/
def disabledAfterStore : CacheState :=
  updateConfig { enabled := some false } ttlStaleStore

/-- Counterexample to claim C6 as stated: right after disabling, the map is
empty but `getStats().currentEntries` still reports the stale value `1`,
because `updateConfig` never calls `updateStats`. -/
theorem claim_C6_cex :
    ttlStaleStore.cache.length = 1 ∧
    ttlStaleStore.stats.currentEntries = 1 ∧
    disabledAfterStore.cache = [] ∧
    disabledAfterStore.stats.currentEntries = 1 := by
  decide

/-- Claim C6 (corrected).  `updateConfig({enabled: false})` on an enabled
store stops the sweeper and removes all entries, and every subsequent `get`
misses (returns absent, incrementing the miss counter and not the hit
counter) until re-enabled; but the stats object is not refreshed, so
`getStats().currentEntries` keeps its previous (stale) value until some
later operation recomputes stats. -/
theorem claim_C6 (p : CacheConfigPatch) (st : CacheState)
    (hp : p.enabled = some false) (hen : st.config.enabled = true) :
    (updateConfig p st).cache = [] ∧
    (updateConfig p st).timerRunning = false ∧
    (updateConfig p st).stats = st.stats ∧
    (updateConfig p st).config.enabled = false ∧
    ∀ (now : Int) (key : String),
      (get now key (updateConfig p st)).1 = none ∧
      (get now key (updateConfig p st)).2.stats.misses =
        (updateConfig p st).stats.misses + 1 ∧
      (get now key (updateConfig p st)).2.stats.hits = (updateConfig p st).stats.hits := by
  have hcfg : (applyPatch p st.config).enabled = false := by
    simp [applyPatch, hp]
  have hrep : updateConfig p st =
      { st with config := applyPatch p st.config, timerRunning := false, cache := [] } := by
    unfold updateConfig
    dsimp only
    simp [hen, hcfg]
  rw [hrep]
  refine ⟨rfl, rfl, rfl, hcfg, ?_⟩
  intro now key
  unfold get
  dsimp only
  simp [hcfg]

/-- Concrete instance of C6 on `ttlStaleStore`. -/
theorem claim_C6_witness :
    (({ enabled := some false } : CacheConfigPatch).enabled = some false) ∧
    ttlStaleStore.config.enabled = true ∧
    disabledAfterStore.cache = [] ∧
    disabledAfterStore.timerRunning = false ∧
    disabledAfterStore.stats = ttlStaleStore.stats ∧
    disabledAfterStore.config.enabled = false ∧
    ((get 7 "k" disabledAfterStore).1 = none ∧
     (get 7 "k" disabledAfterStore).2.stats.misses = disabledAfterStore.stats.misses + 1 ∧
     (get 7 "k" disabledAfterStore).2.stats.hits = disabledAfterStore.stats.hits) := by
  have h := claim_C6 { enabled := some false } ttlStaleStore rfl (by decide)
  exact ⟨rfl, by decide, h.1, h.2.1, h.2.2.1, h.2.2.2.1, h.2.2.2.2 7 "k"⟩

/-! ## C7: phone-search write-through -/

theorem objLookup_objInsert_self (name : String) (phones : List String) :
    ∀ d : ContactsData, objLookup name (objInsert name phones d) = some phones
  | [] => by simp [objLookup, objInsert]
  | (n, ps) :: rest => by
    by_cases h : n = name
    · simp [objLookup, objInsert, h]
    · simp [objLookup, objInsert, h, objLookup_objInsert_self name phones rest]

theorem objLookup_objInsert_ne (name n : String) (phones : List String) (hn : n ≠ name) :
    ∀ d : ContactsData, objLookup n (objInsert name phones d) = objLookup n d
  | [] => by
    have hne : ¬ (name = n) := fun h => hn h.symm
    simp [objLookup, objInsert, hne]
  | (n', ps) :: rest => by
    by_cases h : n' = name
    · subst h
      have hne : ¬ (n' = n) := fun h => hn h.symm
      simp [objLookup, objInsert, hne]
    · simp only [objInsert, if_neg h]
      by_cases h' : n' = n
      · simp [objLookup, h']
      · simp [objLookup, h', objLookup_objInsert_ne name n phones hn rest]

theorem mem_objInsert_self (name : String) (phones : List String) :
    ∀ d : ContactsData, (name, phones) ∈ objInsert name phones d
  | [] => by simp [objInsert]
  | (n, ps) :: rest => by
    by_cases h : n = name
    · simp [objInsert, h]
    · simp [objInsert, h]
      exact Or.inr (mem_objInsert_self name phones rest)

theorem searchCachedContacts_isSome (searchNumbers : List String) :
    ∀ (data : ContactsData) (p : String × List String), p ∈ data →
      contactMatches searchNumbers p = true →
      (searchCachedContacts searchNumbers data).isSome = true
  | [], p, hp, _ => by cases hp
  | q :: rest, p, hp, hm => by
    by_cases hq : contactMatches searchNumbers q = true
    · simp [searchCachedContacts, hq]
    · rcases List.mem_cons.mp hp with rfl | hp
      · exact absurd hm hq
      · simp [searchCachedContacts, hq,
          searchCachedContacts_isSome searchNumbers rest p hp hm]

theorem mapGet_set_self (now : Int) (data : ContactsData) (key : String) (st : CacheState)
    (hen : st.config.enabled = true) :
    mapGet key (set now data key st).cache =
      some { data := data, timestamp := now, accessCount := 1, lastAccessed := now } := by
  have hne : ¬ (st.config.enabled = false) := by simp [hen]
  unfold set
  dsimp only
  rw [if_neg hne]
  exact mapGet_mapSet_self key _ _

theorem cachePhoneSearchResult_config (now : Int) (contactName : String)
    (phoneNumbers : List String) (st : CacheState) :
    (cachePhoneSearchResult now contactName phoneNumbers st).config = st.config := by
  unfold cachePhoneSearchResult
  dsimp only
  rw [set_config, get_config]

theorem cachePhoneSearchResult_store (now : Int) (contactName : String)
    (phoneNumbers : List String) (st : CacheState) (hen : st.config.enabled = true) :
    mapGet "allContacts" (cachePhoneSearchResult now contactName phoneNumbers st).cache =
      some { data := objInsert contactName phoneNumbers
               (((get now "allContacts" st).1).getD []),
             timestamp := now, accessCount := 1, lastAccessed := now } := by
  unfold cachePhoneSearchResult
  dsimp only
  exact mapGet_set_self now _ "allContacts" (get now "allContacts" st).2
    (by rw [get_config]; exact hen)

theorem get_hit_data (now : Int) (key : String) (st : CacheState) (e : CacheEntry)
    (hen : st.config.enabled = true) (hget : mapGet key st.cache = some e)
    (hage : ¬ st.config.ttlMs < now - e.timestamp) :
    (get now key st).1 = some e.data := by
  have hne : ¬ (st.config.enabled = false) := by simp [hen]
  unfold get
  dsimp only
  rw [if_neg hne]
  simp [hget, hage]

/-- Claim C7 (confirmed).  When the fallback per-contact phone scan
succeeds, the optimized search writes the discovered `(name, phones)` pair
through `cachePhoneSearchResult`, which merges it into the bulk snapshot
cached under the well-known `allContacts` key (creating one when `get`
reports none): the merged snapshot maps the discovered name to its phones
and is unchanged at every other name, and it is stored with
`createdAt = now`.  Afterwards (within TTL), a `findContactByPhone` call
whose normalized forms match one of the cached phones is answered by the
cache-only search - some contact is returned and the directory-service scan
flag is `false` (zero additional scans). -/
theorem claim_C7 :
    (∀ (found : PhoneSearchResult) (now : Int) (q q' : String) (st : CacheState),
        validatePhoneNumber q = .ok q' →
        (findContactByPhoneCachedSearch now (normalizePhoneNumber q') st).1 = none →
        findContactByPhoneOptimized true (some found) now q st =
          (some found.name,
           cachePhoneSearchResult now found.name found.phones
             (findContactByPhoneCachedSearch now (normalizePhoneNumber q') st).2,
           true)) ∧
    (∀ (now : Int) (name : String) (phones : List String) (st : CacheState),
        st.config.enabled = true →
        mapGet "allContacts" (cachePhoneSearchResult now name phones st).cache =
          some { data := objInsert name phones (((get now "allContacts" st).1).getD []),
                 timestamp := now, accessCount := 1, lastAccessed := now }) ∧
    (∀ (name : String) (phones : List String) (d : ContactsData),
        objLookup name (objInsert name phones d) = some phones) ∧
    (∀ (name n : String) (phones : List String) (d : ContactsData), n ≠ name →
        objLookup n (objInsert name phones d) = objLookup n d) ∧
    (∀ (now now2 : Int) (name : String) (phones : List String) (st : CacheState)
        (q q' : String) (scan2 : Option PhoneSearchResult),
        st.config.enabled = true →
        validatePhoneNumber q = .ok q' →
        now2 - now ≤ st.config.ttlMs →
        (normalizePhoneNumber q').any
          (fun s => (phones.map stripPhone).any (fun num => phoneNumMatch num s)) = true →
        ((findContactByPhoneOptimized true scan2 now2 q
            (cachePhoneSearchResult now name phones st)).1.isSome = true ∧
         (findContactByPhoneOptimized true scan2 now2 q
            (cachePhoneSearchResult now name phones st)).2.2 = false)) := by
  refine ⟨?_, ?_, ?_, ?_, ?_⟩
  · intro found now q q' st hq hmiss
    unfold findContactByPhoneOptimized
    rw [hq]
    dsimp only [checkContactsAccess]
    rw [if_pos rfl]
    dsimp only
    rw [hmiss]
  · intro now name phones st hen
    exact cachePhoneSearchResult_store now name phones st hen
  · intro name phones d
    exact objLookup_objInsert_self name phones d
  · intro name n phones d hn
    exact objLookup_objInsert_ne name n phones hn d
  · intro now now2 name phones st q q' scan2 hen hq hfresh hmatch
    have hcfg : (cachePhoneSearchResult now name phones st).config = st.config :=
      cachePhoneSearchResult_config now name phones st
    have hstore := cachePhoneSearchResult_store now name phones st hen
    have hdata : (get now2 "allContacts" (cachePhoneSearchResult now name phones st)).1 =
        some (objInsert name phones (((get now "allContacts" st).1).getD [])) := by
      refine get_hit_data now2 "allContacts" _ _ (by rw [hcfg]; exact hen) hstore ?_
      rw [hcfg]
      dsimp only
      omega
    have hsearch : (searchCachedContacts (normalizePhoneNumber q')
        (objInsert name phones (((get now "allContacts" st).1).getD []))).isSome = true := by
      refine searchCachedContacts_isSome _ _ (name, phones) (mem_objInsert_self name phones _) ?_
      exact hmatch
    have hcs : ∃ nm, (findContactByPhoneCachedSearch now2 (normalizePhoneNumber q')
        (cachePhoneSearchResult now name phones st)).1 = some nm := by
      unfold findContactByPhoneCachedSearch
      dsimp only
      rw [hdata]
      exact Option.isSome_iff_exists.mp hsearch
    obtain ⟨nm, hnm⟩ := hcs
    unfold findContactByPhoneOptimized
    rw [hq]
    dsimp only [checkContactsAccess]
    rw [if_pos rfl]
    dsimp only
    rw [hnm]
    exact ⟨rfl, rfl⟩

/-- The store after the spec's Bob scenario first step: empty cache, then a
successful fallback phone scan for "555-1234" resolving to Bob. -/
def bobWriteThrough : CacheState :=
  cachePhoneSearchResult 0 "Bob" ["555-1234"] (ContactCache.init {})

/-- Concrete instance of C7: after the Bob write-through,
`findContactByPhone("5551234")` at time 1 is served from the cache with the
scan flag `false`. -/
theorem claim_C7_witness :
    ((ContactCache.init {}).config.enabled = true) ∧
    validatePhoneNumber "5551234" = .ok "5551234" ∧
    ((1 : Int) - 0 ≤ (ContactCache.init {}).config.ttlMs) ∧
    (normalizePhoneNumber "5551234").any
      (fun s => ((["555-1234"].map stripPhone)).any (fun num => phoneNumMatch num s)) = true ∧
    ((findContactByPhoneOptimized true none 1 "5551234" bobWriteThrough).1.isSome = true ∧
     (findContactByPhoneOptimized true none 1 "5551234" bobWriteThrough).2.2 = false) :=
  ⟨rfl, rfl, by decide, by decide,
   claim_C7.2.2.2.2 0 1 "Bob" ["555-1234"] (ContactCache.init {}) "5551234" "5551234" none
     rfl rfl (by decide) (by decide)⟩

/-! ## C8: phone-matching equivalence -/

/-- The three US-style forms named by the claim. -/
def usPhoneForms : List String := ["+15551234567", "5551234567", "(555) 123-4567"]

/-- A fresh store caching Bob under the given phone form. -/
def bobStoreWith (form : String) : CacheState :=
  set 0 [("Bob", [form])] "allContacts" (ContactCache.init {})

/-- Claim C8 (corrected, US-forms part).  Once any one of the three
US-style forms is cached for Bob, `findContactByPhone` with any of the
three forms resolves to Bob from the cache, with no directory-service
scan. -/
theorem claim_C8 :
    (usPhoneForms.all fun cachedForm =>
      usPhoneForms.all fun queryForm =>
        ((findContactByPhoneOptimized true none 1 queryForm (bobStoreWith cachedForm)).1
            == some "Bob")
          && !(findContactByPhoneOptimized true none 1 queryForm
                (bobStoreWith cachedForm)).2.2) = true := by
  decide

/-- A store caching contact A under the `+`-prefixed form, and one caching
it under the bare-digit form. -/
def ukCachedPlus : CacheState :=
  set 0 [("A", ["+445551234567"])] "allContacts" (ContactCache.init {})

/-- See `ukCachedPlus`. -/
def ukCachedBare : CacheState :=
  set 0 [("A", ["445551234567"])] "allContacts" (ContactCache.init {})

/-- Counterexample to claim C8 as stated: the matching is not symmetric.
Searching the bare digits finds the cached `+`-prefixed number (the
normalizer adds a bare `+` form), but searching the `+`-prefixed number
does not find the cached bare digits - the comparison checks
`num === +search` and `+1num === search`, but never `+num === search`, and
a `+`-prefixed (non-`+1`) query gets no extra normalized forms. -/
theorem claim_C8_cex :
    (findContactByPhoneCachedSearch 1 (normalizePhoneNumber "445551234567") ukCachedPlus).1
      = some "A" ∧
    (findContactByPhoneCachedSearch 1 (normalizePhoneNumber "+445551234567") ukCachedBare).1
      = none := by
  decide

/-! ## C9: error propagation on access denial -/

/-- Claim C9 (corrected).  When the Contacts host permission is denied:
`getAllNumbers` (on a cache miss) and `findNumber` (after a valid name)
propagate a distinct, descriptive access error; but
`findContactByPhoneOptimized` catches everything and silently returns
absent (`none`), with no scan performed and the state unchanged.  An
individual contact record that cannot be read during enumeration is
skipped, and enumeration of readable contacts still succeeds. -/
theorem claim_C9 :
    (∀ (people : List ContactRecord) (fallback : Except String ContactsData)
        (now : Int) (st : CacheState),
        (get now "allContacts" st).1 = none →
        getAllNumbers false people fallback now st =
          (.error ("Error accessing contacts: " ++ accessErrorMsg),
           (get now "allContacts" st).2)) ∧
    (∀ (people : List ContactRecord) (fallback : Except String ContactsData)
        (name n' : String) (now : Int) (st : CacheState),
        validateContactName name = .ok n' →
        findNumber false people fallback name now st =
          (.error ("Error finding contact: " ++ accessErrorMsg), st)) ∧
    (∀ (scan : Option PhoneSearchResult) (now : Int) (q q' : String) (st : CacheState),
        validatePhoneNumber q = .ok q' →
        findContactByPhoneOptimized false scan now q st = (none, st, false)) ∧
    (∀ (acc : ContactsData) (rest : List ContactRecord),
        processPeopleAux acc (none :: rest) = processPeopleAux acc rest) ∧
    (∀ (people : List ContactRecord) (fallback : Except String ContactsData)
        (now : Int) (st : CacheState),
        (get now "allContacts" st).1 = none →
        processPeople people ≠ [] →
        getAllNumbers true people fallback now st =
          (.ok (processPeople people),
           set now (processPeople people) "allContacts" (get now "allContacts" st).2)) := by
  refine ⟨?_, ?_, ?_, ?_, ?_⟩
  · intro people fallback now st hmiss
    unfold getAllNumbers
    dsimp only
    rw [hmiss]
    rfl
  · intro people fallback name n' now st hvn
    unfold findNumber
    rw [hvn]
    rfl
  · intro scan now q q' st hq
    unfold findContactByPhoneOptimized
    rw [hq]
    rfl
  · intro acc rest
    rfl
  · intro people fallback now st hmiss hne
    have hemp : ¬ ((processPeople people).isEmpty = true) := by
      simpa [List.isEmpty_iff] using hne
    unfold getAllNumbers
    dsimp only
    rw [hmiss]
    dsimp only [checkContactsAccess]
    rw [if_pos rfl]
    dsimp only
    rw [if_neg hemp]
    dsimp only
    rw [if_neg hemp]

/-- Concrete instances of C9 with access denied (and, for the enumeration
conjunct, with access granted and one readable contact). -/
theorem claim_C9_witness :
    ((get 0 "allContacts" (ContactCache.init {})).1 = none) ∧
    validateContactName "Alice" = .ok "Alice" ∧
    validatePhoneNumber "5551234" = .ok "5551234" ∧
    processPeople [some ("Bob", ["1"])] ≠ [] ∧
    (getAllNumbers false [] (.ok []) 0 (ContactCache.init {}) =
      (.error ("Error accessing contacts: " ++ accessErrorMsg),
       (get 0 "allContacts" (ContactCache.init {})).2)) ∧
    (findNumber false [] (.ok []) "Alice" 0 (ContactCache.init {}) =
      (.error ("Error finding contact: " ++ accessErrorMsg), ContactCache.init {})) ∧
    (findContactByPhoneOptimized false none 0 "5551234" (ContactCache.init {}) =
      (none, ContactCache.init {}, false)) ∧
    (getAllNumbers true [some ("Bob", ["1"])] (.ok []) 0 (ContactCache.init {}) =
      (.ok (processPeople [some ("Bob", ["1"])]),
       set 0 (processPeople [some ("Bob", ["1"])]) "allContacts"
         (get 0 "allContacts" (ContactCache.init {})).2)) :=
  ⟨by decide, rfl, rfl, by decide,
   claim_C9.1 [] (.ok []) 0 (ContactCache.init {}) (by decide),
   claim_C9.2.1 [] (.ok []) "Alice" "Alice" 0 (ContactCache.init {}) rfl,
   claim_C9.2.2.1 none 0 "5551234" "5551234" (ContactCache.init {}) rfl,
   claim_C9.2.2.2.2 [some ("Bob", ["1"])] (.ok []) 0 (ContactCache.init {})
     (by decide) (by decide)⟩

/-- Counterexample to claim C9 as stated: with access denied,
`findContactByPhone` does not propagate any error - it returns absent with
the state untouched (while `getAllNumbers`, by contrast, throws the
descriptive access error). -/
theorem claim_C9_cex :
    findContactByPhoneOptimized false none 0 "5551234" (ContactCache.init {}) =
      (none, ContactCache.init {}, false) ∧
    getAllNumbers false [] (.ok []) 0 (ContactCache.init {}) =
      (.error ("Error accessing contacts: " ++ accessErrorMsg),
       (get 0 "allContacts" (ContactCache.init {})).2) :=
  ⟨by decide, rfl⟩

/-! ## C10: overwriting an existing key at capacity still evicts -/

/-- A store at `maxEntries = 2` capacity holding `k1` (LRU, last accessed
at 0) and `k2` (last accessed at 1). -/
def atCapacityDistinct : CacheState :=
  { cache := [("k1", { data := [("A", ["1"])], timestamp := 0, accessCount := 1, lastAccessed := 0 }),
              ("k2", { data := [("B", ["2"])], timestamp := 1, accessCount := 1, lastAccessed := 1 })],
    config := { DEFAULT_CONFIG with maxEntries := 2 },
    stats := initialStats, timerRunning := true }

/-- The same store, but with both entries last accessed at time 5 - the
moment at which `set` is called below. -/
def atCapacityTie : CacheState :=
  { cache := [("k1", { data := [("A", ["1"])], timestamp := 5, accessCount := 1, lastAccessed := 5 }),
              ("k2", { data := [("B", ["2"])], timestamp := 5, accessCount := 1, lastAccessed := 5 })],
    config := { DEFAULT_CONFIG with maxEntries := 2 },
    stats := initialStats, timerRunning := true }

/-- Claim C10 (corrected).  On an enabled store at `maxEntries` capacity
that already contains `key`, `set(data, key)` still runs the LRU eviction
pass before inserting; whenever the memory check does not fire and the LRU
scan selects an entry (`j`, necessarily with `lastAccessed` strictly before
`now` and a nonempty key), that entry - possibly stored under a different
key - is removed and the eviction counter is incremented, even though the
insert only replaces the existing entry for `key`.  Concretely, overwriting
`k2` at capacity 2 evicts `k1` and leaves the count strictly below
`maxEntries`. -/
theorem claim_C10 :
    (∀ (now : Int) (data : ContactsData) (key j : String) (st : CacheState),
        st.config.enabled = true →
        (mapGet key st.cache).isSome = true →
        st.config.maxEntries ≤ (st.cache.length : Int) →
        shouldEvictForMemory data st = false →
        (lruScan now st.cache).2 = some j →
        j ≠ "" →
        (set now data key st).cache =
          mapSet key { data := data, timestamp := now, accessCount := 1, lastAccessed := now }
            (mapDelete j st.cache) ∧
        (set now data key st).stats.evictions = st.stats.evictions + 1) ∧
    ((set 2 [("B2", ["9"])] "k2" atCapacityDistinct).cache.map Prod.fst = ["k2"] ∧
     ((set 2 [("B2", ["9"])] "k2" atCapacityDistinct).cache.length : Int)
        < atCapacityDistinct.config.maxEntries ∧
     (mapGet "k2" atCapacityDistinct.cache).isSome = true ∧
     mapGet "k1" (set 2 [("B2", ["9"])] "k2" atCapacityDistinct).cache = none) := by
  refine ⟨?_, by decide, by decide, by decide, by decide⟩
  intro now data key j st hen hkey hcount hmem hscan hj
  have hne : ¬ (st.config.enabled = false) := by simp [hen]
  have h0 : ¬ (st.cache.length = 0) := by
    intro h
    rw [List.length_eq_zero.mp h] at hkey
    simp [mapGet] at hkey
  have hevc : (evictLeastRecentlyUsed now st).cache = mapDelete j st.cache := by
    simp [evictLeastRecentlyUsed, h0, hscan, hj]
  have heve : (evictLeastRecentlyUsed now st).stats.evictions = st.stats.evictions + 1 := by
    simp [evictLeastRecentlyUsed, h0, hscan, hj]
  unfold set
  dsimp only
  rw [if_neg hne]
  simp only [hmem, Bool.false_eq_true, if_false]
  rw [if_pos hcount]
  constructor
  · show mapSet key _ (evictLeastRecentlyUsed now st).cache = _
    rw [hevc]
  · show (evictLeastRecentlyUsed now st).stats.evictions = st.stats.evictions + 1
    exact heve

/-- Concrete instance of C10's universal part on `atCapacityDistinct`. -/
theorem claim_C10_witness :
    atCapacityDistinct.config.enabled = true ∧
    (mapGet "k2" atCapacityDistinct.cache).isSome = true ∧
    atCapacityDistinct.config.maxEntries ≤ (atCapacityDistinct.cache.length : Int) ∧
    shouldEvictForMemory [("B2", ["9"])] atCapacityDistinct = false ∧
    (lruScan 2 atCapacityDistinct.cache).2 = some "k1" ∧
    ((set 2 [("B2", ["9"])] "k2" atCapacityDistinct).cache =
      mapSet "k2"
        { data := [("B2", ["9"])], timestamp := 2, accessCount := 1, lastAccessed := 2 }
        (mapDelete "k1" atCapacityDistinct.cache) ∧
     (set 2 [("B2", ["9"])] "k2" atCapacityDistinct).stats.evictions =
       atCapacityDistinct.stats.evictions + 1) :=
  ⟨by decide, by decide, by decide, by decide, by decide,
   claim_C10.1 2 [("B2", ["9"])] "k2" "k1" atCapacityDistinct
     (by decide) (by decide) (by decide) (by decide) (by decide) (by decide)⟩

/-- Counterexample to claim C10 as stated: at capacity, with the existing
key `k2` being overwritten while every entry was last accessed in the same
millisecond as the `set`, no LRU entry is evicted at all - both keys remain
and the eviction counter stays `0`. -/
theorem claim_C10_cex :
    atCapacityTie.config.enabled = true ∧
    (mapGet "k2" atCapacityTie.cache).isSome = true ∧
    atCapacityTie.config.maxEntries ≤ (atCapacityTie.cache.length : Int) ∧
    (set 5 [("B2", ["9"])] "k2" atCapacityTie).cache.map Prod.fst = ["k1", "k2"] ∧
    (set 5 [("B2", ["9"])] "k2" atCapacityTie).stats.evictions = 0 := by
  decide

end AppleMCP
